import Mathlib

/-!
Formal model of the media-assembly pipeline of `video_generator.py`
(repository BrainRotAI): audio-duration probing, per-segment display-time
allocation, frame composition (image normalization and text fallback), and
the video-assembly orchestration, together with proofs of the specified
properties.

Durations are modelled as exact rationals (`ℚ`), pixel coordinates and
dimensions as naturals, and the effectful environment (filesystem, the WAV
reader, the external encoder) as explicit parameters.  Each definition mirrors
one Python function of the source; line references are given in the doc
comments.
-/

set_option maxRecDepth 8192

namespace VideoGen

/-- `get_audio_duration` (video_generator.py lines 14–32).  The WAV metadata
read by `wave.open` is modelled as `some (frames, sample_rate)` when the open
succeeds and `none` when it raises (missing or unreadable file).  The function
returns `frames / sample_rate`; any exception — including the
`ZeroDivisionError` raised by a zero sample rate — is caught and `0` is
returned. -/
def get_audio_duration (meta : Option (ℕ × ℕ)) : ℚ :=
  match meta with
  | none => 0
  | some (frames, sample_rate) =>
      if sample_rate = 0 then 0 else (frames : ℚ) / sample_rate

/-- Hard-coded two-second minimum display time per image
(`min_duration = 2.0` in `calculate_image_durations`; called
`MIN_SEGMENT_SECONDS` by the spec). -/
def min_duration : ℚ := 2

/-- Python `durations[-1] += x`: add `x` to the last element of the list. -/
def addToLast : List ℚ → ℚ → List ℚ
  | [], _ => []
  | [a], x => [a + x]
  | a :: b :: rest, x => a :: addToLast (b :: rest) x

/-- `calculate_image_durations` (video_generator.py lines 34–63): distribute
`total_duration` evenly over the images, raise the common value to the
two-second floor, then add any remaining shortfall to the last image. -/
def calculate_image_durations {α : Type} (images : List α) (total_duration : ℚ) :
    List ℚ :=
  if images.isEmpty then []
  else
    let base_duration := total_duration / images.length
    let base_duration :=
      if base_duration < min_duration then min_duration else base_duration
    let durations := List.replicate images.length base_duration
    let total_calculated := durations.sum
    if total_calculated < total_duration then
      addToLast durations (total_duration - total_calculated)
    else
      durations

theorem sum_replicate_rat (n : ℕ) (x : ℚ) :
    (List.replicate n x).sum = n * x := by
  simp [List.sum_replicate, nsmul_eq_mul]

/-- Closed form of the allocator on a non-empty list: the residual correction
of lines 59–61 never fires in exact arithmetic, so the result is a constant
list at either the floor or the even share. -/
theorem calculate_image_durations_eq {α : Type} (images : List α) (D : ℚ)
    (h : images ≠ []) :
    calculate_image_durations images D =
      if D / images.length < min_duration then
        List.replicate images.length min_duration
      else
        List.replicate images.length (D / images.length) := by
  have hne : images.isEmpty = false := by
    cases images with
    | nil => exact absurd rfl h
    | cons a l => rfl
  have hn : (0:ℚ) < images.length := by
    cases images with
    | nil => exact absurd rfl h
    | cons a l => exact_mod_cast Nat.succ_pos l.length
  have hn0 : (images.length : ℚ) ≠ 0 := ne_of_gt hn
  unfold calculate_image_durations
  rw [hne]
  simp only [Bool.false_eq_true, if_false]
  by_cases hlt : D / images.length < min_duration
  · rw [if_pos hlt, sum_replicate_rat]
    have hD : D < images.length * min_duration := by
      have h1 := (div_lt_iff₀ hn).mp hlt
      linarith
    rw [if_neg (by linarith), if_pos hlt]
  · rw [if_neg hlt, sum_replicate_rat]
    have hsum : (images.length : ℚ) * (D / images.length) = D := by
      field_simp
    rw [hsum, if_neg (lt_irrefl D), if_neg hlt]

/-- C1: for every segment count `N ≥ 1` and total duration `D ≥ 0`,
`calculate_image_durations` returns a list of exactly `N` durations, each at
least `MIN_SEGMENT_SECONDS = 2.0`, whose sum is at least `D`, with the sum
equal to `D` exactly when `D / N ≥ 2.0`; and for `N = 0` it returns the empty
list. -/
theorem C1_timeline_allocation {α : Type} (images : List α) (D : ℚ)
    (hD : 0 ≤ D) :
    (images.length = 0 → calculate_image_durations images D = []) ∧
    (1 ≤ images.length →
      (calculate_image_durations images D).length = images.length ∧
      (∀ d ∈ calculate_image_durations images D, min_duration ≤ d) ∧
      D ≤ (calculate_image_durations images D).sum ∧
      ((calculate_image_durations images D).sum = D ↔
        min_duration ≤ D / images.length)) := by
  constructor
  · intro h0
    have : images = [] := List.length_eq_zero.mp h0
    subst this
    rfl
  · intro h1
    have hne : images ≠ [] := by
      intro h
      subst h
      simp at h1
    have hn : (0:ℚ) < images.length := by
      exact_mod_cast Nat.lt_of_lt_of_le Nat.zero_lt_one h1
    rw [calculate_image_durations_eq images D hne]
    by_cases hlt : D / images.length < min_duration
    · rw [if_pos hlt]
      have hD2 : D < images.length * min_duration := by
        have h2 := (div_lt_iff₀ hn).mp hlt
        linarith
      refine ⟨List.length_replicate _ _, ?_, ?_, ?_⟩
      · intro d hd
        rw [List.eq_of_mem_replicate hd]
      · rw [sum_replicate_rat]
        linarith
      · rw [sum_replicate_rat]
        constructor
        · intro hEq
          exact absurd hEq.symm (ne_of_lt hD2)
        · intro hge
          exact absurd hlt (not_lt.mpr hge)
    · rw [if_neg hlt]
      push_neg at hlt
      have hsum : (List.replicate images.length (D / images.length)).sum = D := by
        rw [sum_replicate_rat]
        field_simp
      refine ⟨List.length_replicate _ _, ?_, ?_, ?_⟩
      · intro d hd
        rw [List.eq_of_mem_replicate hd]
        exact hlt
      · rw [hsum]
      · rw [hsum]
        exact ⟨fun _ => hlt, fun _ => rfl⟩

/-- Witness for C1 at the spec's own scenario `N = 3`, `D = 9.0`: three
durations summing to exactly `9`. -/
theorem C1_timeline_allocation_witness :
    (calculate_image_durations [(), (), ()] (9:ℚ)).length = 3 ∧
    (calculate_image_durations [(), (), ()] (9:ℚ)).sum = 9 := by
  have h := (C1_timeline_allocation [(), (), ()] (9:ℚ) (by norm_num)).2
    (by norm_num)
  exact ⟨h.1, h.2.2.2.mpr (by norm_num [min_duration])⟩

/-- Pixel colour, an `(R, G, B)` triple. -/
abbrev Color := ℕ × ℕ × ℕ

/-- Shallow model of a PIL image: exact pixel dimensions together with the
colour at each coordinate. -/
structure Img where
  width : ℕ
  height : ℕ
  pixel : ℕ → ℕ → Color

/-- `PIL.Image.new('RGB', (w, h), c)`: a `w × h` image of the single colour
`c`. -/
def imageNew (w h : ℕ) (c : Color) : Img := ⟨w, h, fun _ _ => c⟩

/-- `background.paste(img, (xo, yo))`: pixels inside the pasted rectangle come
from `img`, all others keep the background; the background's dimensions are
unchanged. -/
def paste (bg : Img) (img : Img) (xo yo : ℕ) : Img :=
  ⟨bg.width, bg.height, fun x y =>
    if xo ≤ x ∧ x < xo + img.width ∧ yo ≤ y ∧ y < yo + img.height then
      img.pixel (x - xo) (y - yo)
    else bg.pixel x y⟩

/-- `resize_image_for_video` (video_generator.py lines 65–110).  `decoded` is
the outcome of `Image.open(image_path)`: `some img` on success, `none` when it
raises (missing, unreadable or corrupt file), in which case the `except`
branch of lines 107–110 returns a plain black frame.  `resample` models
`img.resize(..., LANCZOS)`, which always yields exactly the requested
dimensions; its pixel contents are library behaviour and stay abstract.  The
centring offsets use natural subtraction, which matches Python's ints because
the scaled size never exceeds the target. -/
def resize_image_for_video (resample : Img → ℕ → ℕ → ℕ → ℕ → Color)
    (decoded : Option Img) (target_width target_height : ℕ) : Img :=
  match decoded with
  | none => imageNew target_width target_height (0, 0, 0)
  | some img =>
    let img_ratio : ℚ := (img.width : ℚ) / img.height
    let target_ratio : ℚ := (target_width : ℚ) / target_height
    let new_width :=
      if img_ratio > target_ratio then target_width
      else (⌊(target_height : ℚ) * img_ratio⌋).toNat
    let new_height :=
      if img_ratio > target_ratio then (⌊(target_width : ℚ) / img_ratio⌋).toNat
      else target_height
    let resized : Img := ⟨new_width, new_height, resample img new_width new_height⟩
    let background := imageNew target_width target_height (0, 0, 0)
    let x_offset := (target_width - new_width) / 2
    let y_offset := (target_height - new_height) / 2
    paste background resized x_offset y_offset

/-- Modelled from the spec's words for C5: the uniform aspect-ratio-preserving
scale factor `min(targetWidth / srcWidth, targetHeight / srcHeight)`. -/
def specScale (w h tw th : ℕ) : ℚ := min ((tw : ℚ) / w) ((th : ℚ) / h)

/-- Width of the source after scaling by `specScale`, truncated to an
integer. -/
def specScaledWidth (w h tw th : ℕ) : ℕ :=
  (⌊(w : ℚ) * specScale w h tw th⌋).toNat

/-- Height of the source after scaling by `specScale`, truncated to an
integer. -/
def specScaledHeight (w h tw th : ℕ) : ℕ :=
  (⌊(h : ℚ) * specScale w h tw th⌋).toNat

/-- Refinement bridge: on a successfully decoded image the code's two-branch
aspect-ratio computation produces exactly the spec's `min`-scale letterbox
layout. -/
theorem resize_some_eq (resample : Img → ℕ → ℕ → ℕ → ℕ → Color) (img : Img)
    (tw th : ℕ) (hw : 0 < img.width) (hh : 0 < img.height) (htw : 0 < tw)
    (hth : 0 < th) :
    resize_image_for_video resample (some img) tw th =
      paste (imageNew tw th (0, 0, 0))
        ⟨specScaledWidth img.width img.height tw th,
         specScaledHeight img.width img.height tw th,
         resample img (specScaledWidth img.width img.height tw th)
           (specScaledHeight img.width img.height tw th)⟩
        ((tw - specScaledWidth img.width img.height tw th) / 2)
        ((th - specScaledHeight img.width img.height tw th) / 2) := by
  have hwQ : (0:ℚ) < img.width := by exact_mod_cast hw
  have hhQ : (0:ℚ) < img.height := by exact_mod_cast hh
  have htwQ : (0:ℚ) < tw := by exact_mod_cast htw
  have hthQ : (0:ℚ) < th := by exact_mod_cast hth
  have hw0 : ((img.width : ℚ)) ≠ 0 := ne_of_gt hwQ
  have hh0 : ((img.height : ℚ)) ≠ 0 := ne_of_gt hhQ
  simp only [resize_image_for_video]
  by_cases hr : ((img.width : ℚ) / img.height) > ((tw : ℚ) / th)
  · have hcross : (tw : ℚ) * img.height < (img.width : ℚ) * th :=
      (div_lt_div_iff₀ hthQ hhQ).mp hr
    have hmin : specScale img.width img.height tw th = (tw : ℚ) / img.width := by
      apply min_eq_left
      exact (div_le_div_iff₀ hwQ hhQ).mpr (by linarith)
    have hnw : specScaledWidth img.width img.height tw th = tw := by
      unfold specScaledWidth
      rw [hmin]
      have hx : (img.width : ℚ) * ((tw : ℚ) / img.width) = (tw : ℚ) := by
        field_simp
      rw [hx, Int.floor_natCast, Int.toNat_natCast]
    have hnh : specScaledHeight img.width img.height tw th =
        (⌊(tw : ℚ) / ((img.width : ℚ) / img.height)⌋).toNat := by
      unfold specScaledHeight
      rw [hmin]
      have hx : (img.height : ℚ) * ((tw : ℚ) / img.width) =
          (tw : ℚ) / ((img.width : ℚ) / img.height) := by
        field_simp
        ring
      rw [hx]
    rw [if_pos hr, if_pos hr, hnw, hnh]
  · have hle : ((img.width : ℚ) / img.height) ≤ ((tw : ℚ) / th) := not_lt.mp hr
    have hcross : (img.width : ℚ) * th ≤ (tw : ℚ) * img.height :=
      (div_le_div_iff₀ hhQ hthQ).mp hle
    have hmin : specScale img.width img.height tw th = (th : ℚ) / img.height := by
      apply min_eq_right
      exact (div_le_div_iff₀ hhQ hwQ).mpr (by linarith)
    have hnh : specScaledHeight img.width img.height tw th = th := by
      unfold specScaledHeight
      rw [hmin]
      have hx : (img.height : ℚ) * ((th : ℚ) / img.height) = (th : ℚ) := by
        field_simp
      rw [hx, Int.floor_natCast, Int.toNat_natCast]
    have hnw : specScaledWidth img.width img.height tw th =
        (⌊(th : ℚ) * ((img.width : ℚ) / img.height)⌋).toNat := by
      unfold specScaledWidth
      rw [hmin]
      have hx : (img.width : ℚ) * ((th : ℚ) / img.height) =
          (th : ℚ) * ((img.width : ℚ) / img.height) := by
        field_simp
        ring
      rw [hx]
    rw [if_neg hr, if_neg hr, hnw, hnh]

/-- C5: for every valid decodable source image and positive target dimensions,
`resize_image_for_video` returns a frame of exactly
`(target_width, target_height)`: the source is scaled by the uniform
aspect-ratio-preserving factor `min(tw/srcW, th/srcH)` and centred on an
opaque black `(0,0,0)` background of exactly the target dimensions. -/
theorem C5_normalize_image (resample : Img → ℕ → ℕ → ℕ → ℕ → Color)
    (img : Img) (tw th : ℕ) (hw : 0 < img.width) (hh : 0 < img.height)
    (htw : 0 < tw) (hth : 0 < th) :
    (resize_image_for_video resample (some img) tw th).width = tw ∧
    (resize_image_for_video resample (some img) tw th).height = th ∧
    (∀ x y,
      (resize_image_for_video resample (some img) tw th).pixel x y =
        if (tw - specScaledWidth img.width img.height tw th) / 2 ≤ x ∧
           x < (tw - specScaledWidth img.width img.height tw th) / 2 +
             specScaledWidth img.width img.height tw th ∧
           (th - specScaledHeight img.width img.height tw th) / 2 ≤ y ∧
           y < (th - specScaledHeight img.width img.height tw th) / 2 +
             specScaledHeight img.width img.height tw th then
          resample img (specScaledWidth img.width img.height tw th)
            (specScaledHeight img.width img.height tw th)
            (x - (tw - specScaledWidth img.width img.height tw th) / 2)
            (y - (th - specScaledHeight img.width img.height tw th) / 2)
        else (0, 0, 0)) := by
  rw [resize_some_eq resample img tw th hw hh htw hth]
  exact ⟨rfl, rfl, fun x y => rfl⟩

/-- Witness for C5: a 4×2 source normalised into an 8×8 target keeps the
exact target width. -/
theorem C5_normalize_image_witness :
    (resize_image_for_video (fun _ _ _ _ _ => (7, 7, 7))
      (some ⟨4, 2, fun _ _ => (1, 2, 3)⟩) 8 8).width = 8 :=
  (C5_normalize_image (fun _ _ _ _ _ => (7, 7, 7)) ⟨4, 2, fun _ _ => (1, 2, 3)⟩
    8 8 (by decide) (by decide) (by decide) (by decide)).1

/-- C10: `resize_image_for_video` is a total function: for every input —
including a failed open or decode — it returns an image of exactly
`(target_width, target_height)`, and on any load/decode failure every pixel of
the returned frame is pure black `(0, 0, 0)`, with no drawn content. -/
theorem C10_resize_total_black (resample : Img → ℕ → ℕ → ℕ → ℕ → Color)
    (decoded : Option Img) (tw th : ℕ) :
    (resize_image_for_video resample decoded tw th).width = tw ∧
    (resize_image_for_video resample decoded tw th).height = th ∧
    (decoded = none →
      ∀ x y,
        (resize_image_for_video resample decoded tw th).pixel x y = (0, 0, 0)) := by
  cases decoded with
  | none => exact ⟨rfl, rfl, fun _ _ _ => rfl⟩
  | some img => exact ⟨rfl, rfl, fun hcontra => by simp at hcontra⟩

/-- Witness for C10: with a failed decode the 1920×1080 fallback frame is
black at the origin. -/
theorem C10_resize_total_black_witness :
    (resize_image_for_video (fun _ _ _ _ _ => (9, 9, 9)) none 1920 1080).pixel
      0 0 = (0, 0, 0) :=
  (C10_resize_total_black (fun _ _ _ _ _ => (9, 9, 9)) none 1920 1080).2.2 rfl 0 0

/-- One `draw.text((x, y), s, fill)` call issued on the canvas.  Coordinates
are integers: the vertical start can go negative for tall text blocks
(Python's floor division of a negative difference). -/
structure TextOp where
  x : ℤ
  y : ℤ
  str : String
  fill : Color

/-- The canvas built by `create_text_overlay_image`: its dimensions, the
background fill, and the sequence of text-draw calls in issue order. -/
structure Canvas where
  width : ℕ
  height : ℕ
  background : Color
  ops : List TextOp

/-- Python `text.split()`: split on whitespace, dropping empty pieces. -/
def splitWords (text : String) : List String :=
  (text.split Char.isWhitespace).filter (fun w => w ≠ "")

/-- The greedy word-wrap loop of lines 142–153.  `measure` models
`draw.textbbox((0, 0), s, font)[2]` — the rendered width of `s` in the chosen
font.  `max_width` is an integer because Python's `width - 100` may go
negative for tiny canvases. -/
def wrapWords (measure : String → ℕ) (max_width : ℤ) :
    List String → List String → List String → List String
  | [], lines, current_line =>
      if current_line.isEmpty then lines
      else lines ++ [String.intercalate " " current_line]
  | word :: rest, lines, current_line =>
      let test_line := String.intercalate " " (current_line ++ [word])
      if (measure test_line : ℤ) ≤ max_width then
        wrapWords measure max_width rest lines (current_line ++ [word])
      else
        if current_line.isEmpty then
          wrapWords measure max_width rest lines [word]
        else
          wrapWords measure max_width rest
            (lines ++ [String.intercalate " " current_line]) [word]

/-- `create_text_overlay_image` (video_generator.py lines 112–176).  The
canvas starts as a dark `(20, 20, 20)` background.  `render_ok` models whether
the `try` body (font loading, measuring, drawing) runs without raising: when
it raises, the `except` branch draws one plain truncated line at `(50,
height // 2)`.  On the normal path every wrapped line is drawn twice — a
2-pixel-offset black shadow, then the white main pass. -/
def create_text_overlay_image (measure : String → ℕ) (render_ok : Bool)
    (text : String) (width height font_size : ℕ) : Canvas :=
  if render_ok then
    let max_width : ℤ := (width : ℤ) - 100
    let lines := wrapWords measure max_width (splitWords text) [] []
    let line_height := font_size + 10
    let total_text_height := lines.length * line_height
    let start_y : ℤ := Int.fdiv ((height : ℤ) - total_text_height) 2
    let ops :=
      (lines.enum.map (fun p =>
        let text_width := measure p.2
        let x : ℤ := Int.fdiv ((width : ℤ) - text_width) 2
        let y : ℤ := start_y + p.1 * line_height
        [TextOp.mk (x + 2) (y + 2) p.2 (0, 0, 0),
         TextOp.mk x y p.2 (255, 255, 255)])).flatten
    ⟨width, height, (20, 20, 20), ops⟩
  else
    ⟨width, height, (20, 20, 20),
      [TextOp.mk 50 (Int.fdiv (height : ℤ) 2) (text.take 100 ++ "...")
        (255, 255, 255)]⟩

/-- C6: `create_text_overlay_image` never raises and, for every text input —
empty or arbitrarily long — returns a canvas of exactly the requested
`(width, height)`; when the rendering body fails it degrades to a single
plain white text line at the fixed position `(50, height // 2)` whose content
is the input truncated to at most 100 characters plus an ellipsis, instead of
propagating the error. -/
theorem C6_text_overlay_total (measure : String → ℕ) (render_ok : Bool)
    (text : String) (width height font_size : ℕ) :
    (create_text_overlay_image measure render_ok text width height
      font_size).width = width ∧
    (create_text_overlay_image measure render_ok text width height
      font_size).height = height ∧
    (render_ok = false →
      (create_text_overlay_image measure render_ok text width height
          font_size).ops =
        [TextOp.mk 50 (Int.fdiv (height : ℤ) 2) (text.take 100 ++ "...")
          (255, 255, 255)] ∧
      (text.take 100).length ≤ 100) := by
  cases render_ok with
  | false =>
    refine ⟨rfl, rfl, fun _ => ⟨rfl, ?_⟩⟩
    rw [String.take_eq]
    exact List.length_take_le _ _
  | true => exact ⟨rfl, rfl, fun hcontra => by simp at hcontra⟩

/-- Witness for C6: on the degraded path with a short text the fallback line
is drawn verbatim at `(50, 540)` on a 1920×1080 canvas. -/
theorem C6_text_overlay_total_witness :
    (create_text_overlay_image (fun _ => 0) false "hello" 1920 1080 48).ops =
      [TextOp.mk 50 540 "hello..." (255, 255, 255)] := by
  have h :=
    ((C6_text_overlay_total (fun _ => 0) false "hello" 1920 1080 48).2.2 rfl).1
  rw [h]
  rfl

/-- One entry of the `images` list passed to
`create_video_from_images_and_audio`: a Python dict whose `'path'` and
`'segment_text'` keys may each be absent (`none`).  The code reads
`img_data['path']` (raising `KeyError` when absent) and
`img_data.get('segment_text', ...)` (defaulting when absent). -/
structure ImgData where
  path : Option String
  segment_text : Option String
deriving DecidableEq, Inhabited

/-- Provenance of one processed frame: which compositor produced it.
`fromImage p` records a `resize_image_for_video(p)` call, `fromText t` a
`create_text_overlay_image(t)` call. -/
inductive FrameSrc where
  | fromImage (p : String)
  | fromText (t : String)
deriving DecidableEq

/-- One line of the FFmpeg concat manifest `input_list.txt`: either a
`file '...'` line or a `duration ...` line. -/
inductive ManifestLine where
  | fileLine (p : String)
  | durationLine (d : ℚ)
deriving DecidableEq

/-- Observable filesystem effects of one `create_video_from_images_and_audio`
call: whether the scoped `temp_video_images` directory still exists when the
call returns, which frame files were written (in order, with their
provenance), and the manifest contents if `input_list.txt` was written. -/
structure AssembleState where
  temp_dir_exists : Bool
  frames_written : List (String × FrameSrc)
  manifest : Option (List ManifestLine)
deriving DecidableEq

/-- Which return site of `create_video_from_images_and_audio` produced the
result.  The Python function returns a bare `bool`; the branches are
distinguished here exactly as the code distinguishes them (distinct return
statements): `ok` is the `returncode == 0` success, `noContent` the
`if not images` early return, `encodeError` the non-zero-returncode return
(carrying the printed `result.stderr`), and `exn` the outer
`except Exception` handler. -/
inductive Outcome where
  | ok
  | noContent
  | encodeError (stderr : String)
  | exn
deriving DecidableEq

/-- Python `f"{i:04d}"`: decimal rendering left-padded with zeros to at least
four digits. -/
def pad4 (i : ℕ) : String :=
  let s := toString i
  String.mk (List.replicate (4 - s.length) '0') ++ s

/-- Temporary frame file name `f"frame_{i:04d}.png"` of line 221 (relative to
the scoped temporary directory). -/
def frame_name (i : ℕ) : String := "frame_" ++ pad4 i ++ ".png"

/-- The per-segment loop of lines 211–223, processing `zip(images, durations)`
with running index `i`.  For each entry: reading `img_data['path']` raises
`KeyError` when the key is absent (second component `false`, aborting the
loop; frames already saved stay recorded); otherwise the frame comes from
`resize_image_for_video` when `os.path.exists` succeeds and from
`create_text_overlay_image` with the segment text (default `f'Part {i+1}'`)
when it does not, and is saved as `frame_{i:04d}.png`. -/
def processLoop (fs_exists : String → Bool) :
    List (ImgData × ℚ) → ℕ → List (String × FrameSrc × ℚ) × Bool
  | [], _ => ([], true)
  | (img_data, duration) :: rest, i =>
    match img_data.path with
    | none => ([], false)
    | some p =>
      let src :=
        if fs_exists p then FrameSrc.fromImage p
        else
          FrameSrc.fromText
            (img_data.segment_text.getD ("Part " ++ toString (i + 1)))
      let r := processLoop fs_exists rest (i + 1)
      ((frame_name i, src, duration) :: r.1, r.2)

/-- `create_video_from_images_and_audio` (video_generator.py lines 178–272).
Environment parameters: `fs_exists` models `os.path.exists`, `meta` the WAV
metadata read by `get_audio_duration`, and `enc_returncode`/`enc_stderr` the
external  encoder's exit status and diagnostic stream.  The steps in code order:
probe the audio duration; return early on an empty image list (before any
filesystem write); allocate durations; create the temporary directory;
process and save one frame per segment; write the concat manifest
(`input_list.txt`, inside the temporary directory): one `file`/`duration`
line pair per frame plus the last frame's `file` line repeated; run FFmpeg.
`shutil.rmtree` removes the temporary directory only in the
`returncode == 0` branch; the failure return and the outer `except` handler
leave it in place. -/
def create_video_from_images_and_audio (fs_exists : String → Bool)
    (meta : Option (ℕ × ℕ)) (enc_returncode : ℤ) (enc_stderr : String)
    (images : List ImgData) : Outcome × AssembleState :=
  let audio_duration := get_audio_duration meta
  if images.isEmpty then
    (Outcome.noContent, ⟨false, [], none⟩)
  else
    let durations := calculate_image_durations images audio_duration
    let pl := processLoop fs_exists (images.zip durations) 0
    if pl.2 then
      let manifest_lines :=
        ((pl.1.map (fun t =>
          [ManifestLine.fileLine t.1, ManifestLine.durationLine t.2.2])).flatten)
        ++ (match pl.1.getLast? with
            | some t => [ManifestLine.fileLine t.1]
            | none => [])
      if enc_returncode = 0 then
        (Outcome.ok, ⟨false, pl.1.map (fun t => (t.1, t.2.1)), some manifest_lines⟩)
      else
        (Outcome.encodeError enc_stderr,
          ⟨true, pl.1.map (fun t => (t.1, t.2.1)), some manifest_lines⟩)
    else
      (Outcome.exn, ⟨true, pl.1.map (fun t => (t.1, t.2.1)), none⟩)

/-- Compositor selected by the loop body for segment index `k` when the
segment's path key is present: the image path when the file exists, otherwise
the text fallback (placeholder `'Part {k+1}'` when the text is absent). -/
def mkSrc (fs_exists : String → Bool) (k : ℕ) (d : ImgData) : FrameSrc :=
  match d.path with
  | some p =>
      if fs_exists p then FrameSrc.fromImage p
      else FrameSrc.fromText (d.segment_text.getD ("Part " ++ toString (k + 1)))
  | none => FrameSrc.fromText ""

/-- Closed form of `processLoop` when every segment carries a path key: one
frame per segment, in order, with the `j`-th frame named `frame_{i+j:04d}.png`
and paired with the `j`-th duration; the loop completes. -/
theorem processLoop_closed (fs_exists : String → Bool) (imgs : List ImgData) :
    ∀ (ds : List ℚ) (i : ℕ), imgs.length = ds.length →
      (∀ x ∈ imgs, x.path ≠ none) →
      processLoop fs_exists (imgs.zip ds) i =
        ((List.range imgs.length).map (fun j =>
          (frame_name (i + j), mkSrc fs_exists (i + j) (imgs.getD j default),
            ds.getD j 0)), true) := by
  induction imgs with
  | nil =>
    intro ds i _ _
    simp [processLoop]
  | cons d imgs ih =>
    intro ds i hlen hp
    cases ds with
    | nil => simp at hlen
    | cons q ds =>
      obtain ⟨p, hp0⟩ : ∃ p, d.path = some p := by
        cases hd : d.path with
        | none => exact absurd hd (hp d (by simp))
        | some p => exact ⟨p, rfl⟩
      have hlen2 : imgs.length = ds.length := by simpa using hlen
      have ih2 := ih ds (i + 1) hlen2 (fun x hx => hp x (by simp [hx]))
      have hhead : mkSrc fs_exists i d =
          (if fs_exists p then FrameSrc.fromImage p
           else FrameSrc.fromText
             (d.segment_text.getD ("Part " ++ toString (i + 1)))) := by
        simp [mkSrc, hp0]
      have htail : (List.range imgs.length).map (fun j =>
            (frame_name (i + 1 + j),
              mkSrc fs_exists (i + 1 + j) (imgs.getD j default),
              ds.getD j 0)) =
          (List.range imgs.length).map (fun j =>
            (frame_name (i + (j + 1)),
              mkSrc fs_exists (i + (j + 1)) ((d :: imgs).getD (j + 1) default),
              (q :: ds).getD (j + 1) 0)) := by
        apply List.map_congr_left
        intro j _
        have harith : i + 1 + j = i + (j + 1) := by omega
        simp [harith, List.getD_cons_succ]
      have ih2' : processLoop fs_exists (List.zipWith Prod.mk imgs ds) (i + 1) =
          ((List.range imgs.length).map (fun j =>
            (frame_name (i + 1 + j),
              mkSrc fs_exists (i + 1 + j) (imgs.getD j default),
              ds.getD j 0)), true) := ih2
      simp only [List.zip_cons_cons, processLoop, hp0, ih2']
      rw [htail]
      simp only [List.length_cons, List.range_succ_eq_map, List.map_cons,
        List.map_map]
      refine Prod.ext ?_ rfl
      congr 1
      simp [Nat.add_zero, List.getD_cons_zero, hhead]

theorem range_getLast? (n : ℕ) (h : n ≠ 0) :
    (List.range n).getLast? = some (n - 1) := by
  obtain ⟨m, rfl⟩ := Nat.exists_eq_succ_of_ne_zero h
  simp [List.range_succ]

/-- Length of the allocation always equals the segment count. -/
theorem calculate_image_durations_length {α : Type} (images : List α) (D : ℚ)
    (h : images ≠ []) :
    (calculate_image_durations images D).length = images.length := by
  rw [calculate_image_durations_eq images D h]
  split <;> simp

/-- Master closed form of the assembler on a non-empty list whose segments all
carry a path key: one frame per segment in order, the manifest interleaves
`file`/`duration` lines and repeats the last frame, the temporary directory
survives exactly when the encoder fails, and the outcome is `ok` or
`encodeError` according to the exit status. -/
theorem create_video_closed (fs_exists : String → Bool)
    (meta : Option (ℕ × ℕ)) (enc_returncode : ℤ) (enc_stderr : String)
    (images : List ImgData) (h1 : images ≠ [])
    (h2 : ∀ x ∈ images, x.path ≠ none) :
    create_video_from_images_and_audio fs_exists meta enc_returncode enc_stderr
        images =
      (if enc_returncode = 0 then
        (Outcome.ok,
          ⟨false,
           (List.range images.length).map (fun j =>
             (frame_name j, mkSrc fs_exists j (images.getD j default))),
           some ((((List.range images.length).map (fun i =>
               [ManifestLine.fileLine (frame_name i),
                ManifestLine.durationLine
                  ((calculate_image_durations images
                    (get_audio_duration meta)).getD i 0)])).flatten)
             ++ [ManifestLine.fileLine (frame_name (images.length - 1))])⟩)
      else
        (Outcome.encodeError enc_stderr,
          ⟨true,
           (List.range images.length).map (fun j =>
             (frame_name j, mkSrc fs_exists j (images.getD j default))),
           some ((((List.range images.length).map (fun i =>
               [ManifestLine.fileLine (frame_name i),
                ManifestLine.durationLine
                  ((calculate_image_durations images
                    (get_audio_duration meta)).getD i 0)])).flatten)
             ++ [ManifestLine.fileLine (frame_name (images.length - 1))])⟩)) := by
  have hne : images.isEmpty = false := by
    cases images with
    | nil => exact absurd rfl h1
    | cons a l => rfl
  have hN : images.length ≠ 0 := by
    cases images with
    | nil => exact absurd rfl h1
    | cons a l => simp
  set D := get_audio_duration meta with hD
  set ds := calculate_image_durations images D with hds
  have hlen : images.length = ds.length :=
    (calculate_image_durations_length images D h1).symm
  have hpl := processLoop_closed fs_exists images ds 0 hlen h2
  have hframes : ((List.range images.length).map (fun j =>
        (frame_name (0 + j), mkSrc fs_exists (0 + j) (images.getD j default),
          ds.getD j 0))).map (fun t => (t.1, t.2.1)) =
      (List.range images.length).map (fun j =>
        (frame_name j, mkSrc fs_exists j (images.getD j default))) := by
    rw [List.map_map]
    apply List.map_congr_left
    intro j _
    simp
  have hmanifest : ((List.range images.length).map (fun j =>
        (frame_name (0 + j), mkSrc fs_exists (0 + j) (images.getD j default),
          ds.getD j 0))).map (fun t =>
          [ManifestLine.fileLine t.1, ManifestLine.durationLine t.2.2]) =
      (List.range images.length).map (fun i =>
        [ManifestLine.fileLine (frame_name i),
         ManifestLine.durationLine (ds.getD i 0)]) := by
    rw [List.map_map]
    apply List.map_congr_left
    intro j _
    simp
  have hlast : ((List.range images.length).map (fun j =>
        (frame_name (0 + j), mkSrc fs_exists (0 + j) (images.getD j default),
          ds.getD j 0))).getLast? =
      some (frame_name (0 + (images.length - 1)),
        mkSrc fs_exists (0 + (images.length - 1))
          (images.getD (images.length - 1) default),
        ds.getD (images.length - 1) 0) := by
    rw [List.getLast?_map, range_getLast? images.length hN]
    rfl
  simp only [create_video_from_images_and_audio, hne, Bool.false_eq_true,
    if_false, ← hD, ← hds, hpl, hframes, hmanifest, hlast]
  simp [Nat.zero_add]

/-- C2 counterexample: one segment, a missing image file, encoder exit status
`1` with diagnostic `"boom"`.  The call does fail through the encoder-error
branch carrying the diagnostic, but the scoped temporary frame directory
still exists after the call returns — refuting the claim that it no longer
exists on the failure path. -/
theorem C2_counterexample :
    (create_video_from_images_and_audio (fun _ => false) none 1 "boom"
      [⟨some "img.png", some "hello"⟩]).1 = Outcome.encodeError "boom" ∧
    (create_video_from_images_and_audio (fun _ => false) none 1 "boom"
      [⟨some "img.png", some "hello"⟩]).2.temp_dir_exists ≠ false := by
  have h := create_video_closed (fun _ => false) none 1 "boom"
    [⟨some "img.png", some "hello"⟩] (by decide) (by decide)
  rw [h, if_neg (by decide : ¬ ((1:ℤ) = 0))]
  exact ⟨rfl, by decide⟩

/-- C2 (amended): when the external encoder exits with a non-zero status the
assembler fails through the `returncode != 0` branch (the spec's
`EncodeError`), carrying the tool's diagnostic output — but the scoped
temporary frame directory still exists after the call returns:
`shutil.rmtree` runs only on the success path, so temporary frames are not
cleaned up on the failure path. -/
theorem C2_encode_failure (fs_exists : String → Bool) (meta : Option (ℕ × ℕ))
    (enc_returncode : ℤ) (enc_stderr : String) (images : List ImgData)
    (h1 : images ≠ []) (h2 : ∀ x ∈ images, x.path ≠ none)
    (h3 : enc_returncode ≠ 0) :
    (create_video_from_images_and_audio fs_exists meta enc_returncode
      enc_stderr images).1 = Outcome.encodeError enc_stderr ∧
    (create_video_from_images_and_audio fs_exists meta enc_returncode
      enc_stderr images).2.temp_dir_exists = true := by
  rw [create_video_closed fs_exists meta enc_returncode enc_stderr images h1 h2,
    if_neg h3]
  exact ⟨rfl, rfl⟩

/-- Witness for C2 (amended) at encoder status `1`: the failure carries the
diagnostic and the temporary directory survives. -/
theorem C2_encode_failure_witness :
    (create_video_from_images_and_audio (fun _ => false) none 1 "err"
      [⟨some "a.png", none⟩]).1 = Outcome.encodeError "err" ∧
    (create_video_from_images_and_audio (fun _ => false) none 1 "err"
      [⟨some "a.png", none⟩]).2.temp_dir_exists = true :=
  C2_encode_failure (fun _ => false) none 1 "err" [⟨some "a.png", none⟩]
    (by decide) (by decide) (by decide)

/-- C3 counterexample: a segment whose image file exists (`os.path.exists`
true) but cannot be decoded.  The recorded frame provenance is
`fromImage "corrupt.png"`: the assembly loop routed the segment through
`resize_image_for_video` (which recovers internally with a black frame) and
did not fall back to a rendered text frame as the claim states. -/
theorem C3_counterexample :
    (create_video_from_images_and_audio (fun _ => true) none 0 ""
      [⟨some "corrupt.png", some "hello"⟩]).2.frames_written =
      [("frame_0000.png", FrameSrc.fromImage "corrupt.png")] := by
  have h := create_video_closed (fun _ => true) none 0 ""
    [⟨some "corrupt.png", some "hello"⟩] (by decide) (by decide)
  rw [h, if_pos (show (0:ℤ) = 0 from rfl)]
  rfl

/-- C3 (amended): an existing-but-undecodable source image never surfaces an
error to the assembler's caller and never aborts the job, but the recovery
happens inside `resize_image_for_video`, which catches the decode error and
returns a solid black frame of the full target size; the assembly loop still
routes such a segment through `resize_image_for_video` — it does not fall
back to a rendered text frame. -/
theorem C3_decode_error_recovery (resample : Img → ℕ → ℕ → ℕ → ℕ → Color)
    (tw th : ℕ) (fs_exists : String → Bool) (meta : Option (ℕ × ℕ))
    (enc_returncode : ℤ) (enc_stderr : String) (p txt : String)
    (hp : fs_exists p = true) :
    (create_video_from_images_and_audio fs_exists meta enc_returncode
      enc_stderr [⟨some p, some txt⟩]).2.frames_written =
      [(frame_name 0, FrameSrc.fromImage p)] ∧
    (create_video_from_images_and_audio fs_exists meta enc_returncode
      enc_stderr [⟨some p, some txt⟩]).1 ≠ Outcome.exn ∧
    (resize_image_for_video resample none tw th).width = tw ∧
    (resize_image_for_video resample none tw th).height = th ∧
    (∀ x y, (resize_image_for_video resample none tw th).pixel x y =
      (0, 0, 0)) := by
  have h := create_video_closed fs_exists meta enc_returncode enc_stderr
    [⟨some p, some txt⟩] (by simp) (by simp)
  have hr1 : List.range 1 = [0] := rfl
  refine ⟨?_, ?_, rfl, rfl, fun x y => rfl⟩
  · rw [h]
    by_cases hrc : enc_returncode = 0
    · rw [if_pos hrc]
      simp [hr1, mkSrc, hp]
    · rw [if_neg hrc]
      simp [hr1, mkSrc, hp]
  · rw [h]
    by_cases hrc : enc_returncode = 0
    · rw [if_pos hrc]
      simp
    · rw [if_neg hrc]
      simp

/-- Witness for C3 (amended): an existing file `broken.png` is routed through
`resize_image_for_video`, recorded as an image-composited frame. -/
theorem C3_decode_error_recovery_witness :
    (create_video_from_images_and_audio (fun _ => true) (some (8, 4)) 0 "ok"
      [⟨some "broken.png", some "txt"⟩]).2.frames_written =
      [(frame_name 0, FrameSrc.fromImage "broken.png")] :=
  (C3_decode_error_recovery (fun _ _ _ _ _ => (0, 0, 0)) 1920 1080
    (fun _ => true) (some (8, 4)) 0 "ok" "broken.png" "txt" rfl).1

/-- C4 counterexample: a single segment whose record lacks the `'path'` key.
Reading `img_data['path']` raises `KeyError`, which the outer `except`
handler turns into a failed job: no frame at all is produced for the segment,
refuting the claim that such a segment gets a rendered text frame and that no
segment aborts the job for lack of an image. -/
theorem C4_counterexample :
    (create_video_from_images_and_audio (fun _ => true) none 0 ""
      [⟨none, some "hello"⟩]).1 = Outcome.exn ∧
    (create_video_from_images_and_audio (fun _ => true) none 0 ""
      [⟨none, some "hello"⟩]).2.frames_written = [] := by
  constructor <;>
    norm_num [create_video_from_images_and_audio, get_audio_duration,
      calculate_image_durations, processLoop, min_duration]

/-- C4 (amended): for every segment whose record carries the path key the
assembler produces exactly one frame, in order: composed via
`resize_image_for_video` when the file at the path exists (readable or not),
otherwise rendered via `create_text_overlay_image` from the segment text —
or from the generated placeholder `'Part {i+1}'` when the text is absent —
and no such segment aborts the job.  (A segment whose record lacks the path
key aborts the whole job instead; see the counterexample.) -/
theorem C4_frame_per_segment (fs_exists : String → Bool)
    (meta : Option (ℕ × ℕ)) (enc_returncode : ℤ) (enc_stderr : String)
    (images : List ImgData) (h1 : images ≠ [])
    (h2 : ∀ x ∈ images, x.path ≠ none) :
    (create_video_from_images_and_audio fs_exists meta enc_returncode
      enc_stderr images).1 ≠ Outcome.exn ∧
    (create_video_from_images_and_audio fs_exists meta enc_returncode
      enc_stderr images).2.frames_written =
      (List.range images.length).map (fun j =>
        (frame_name j, mkSrc fs_exists j (images.getD j default))) := by
  rw [create_video_closed fs_exists meta enc_returncode enc_stderr images h1 h2]
  by_cases hrc : enc_returncode = 0
  · rw [if_pos hrc]
    exact ⟨by simp, rfl⟩
  · rw [if_neg hrc]
    exact ⟨by simp, rfl⟩

/-- Witness for C4 (amended): a present path whose file is missing and whose
text is absent yields the `'Part 1'` placeholder text frame. -/
theorem C4_frame_per_segment_witness :
    (create_video_from_images_and_audio (fun _ => false) none 0 ""
      [⟨some "a.png", none⟩]).2.frames_written =
      [("frame_0000.png", FrameSrc.fromText "Part 1")] := by
  have h := (C4_frame_per_segment (fun _ => false) none 0 ""
    [⟨some "a.png", none⟩] (by decide) (by decide)).2
  rw [h]
  rfl

/-- C7: for a non-empty segment list (all records carrying their path key)
the manifest written by the assembler pairs, in playback order, the `i`-th
frame file with the `i`-th allocated duration — one `file` line plus one
`duration` line per segment — followed by exactly one extra trailing `file`
line repeating the final frame's path with no duration entry. -/
theorem C7_manifest (fs_exists : String → Bool) (meta : Option (ℕ × ℕ))
    (enc_returncode : ℤ) (enc_stderr : String) (images : List ImgData)
    (h1 : images ≠ []) (h2 : ∀ x ∈ images, x.path ≠ none) :
    (create_video_from_images_and_audio fs_exists meta enc_returncode
      enc_stderr images).2.manifest =
      some ((((List.range images.length).map (fun i =>
          [ManifestLine.fileLine (frame_name i),
           ManifestLine.durationLine
             ((calculate_image_durations images
               (get_audio_duration meta)).getD i 0)])).flatten)
        ++ [ManifestLine.fileLine (frame_name (images.length - 1))]) := by
  rw [create_video_closed fs_exists meta enc_returncode enc_stderr images h1 h2]
  by_cases hrc : enc_returncode = 0
  · rw [if_pos hrc]
  · rw [if_neg hrc]

/-- Witness for C7: one segment with failed audio probe allocates `[2.0]` and
the manifest is the `file`/`duration` pair followed by the repeated final
`file` line. -/
theorem C7_manifest_witness :
    (create_video_from_images_and_audio (fun _ => false) none 0 ""
      [⟨some "a.png", none⟩]).2.manifest =
      some [ManifestLine.fileLine "frame_0000.png",
        ManifestLine.durationLine 2,
        ManifestLine.fileLine "frame_0000.png"] := by
  have h := C7_manifest (fun _ => false) none 0 "" [⟨some "a.png", none⟩]
    (by decide) (by decide)
  rw [h]
  have hd : calculate_image_durations [(⟨some "a.png", none⟩ : ImgData)]
      (get_audio_duration none) = [min_duration] := by
    rw [calculate_image_durations_eq _ _ (by decide)]
    norm_num [get_audio_duration, min_duration]
  rw [hd]
  norm_num [min_duration]
  rfl

/-- C8: calling the assembler with an empty segment list fails through the
`if not images` branch (the spec's `NoContentError`) and performs no
filesystem writes: no temporary directory, no frames, no manifest. -/
theorem C8_empty_input (fs_exists : String → Bool) (meta : Option (ℕ × ℕ))
    (enc_returncode : ℤ) (enc_stderr : String) :
    create_video_from_images_and_audio fs_exists meta enc_returncode enc_stderr
      [] = (Outcome.noContent, ⟨false, [], none⟩) := rfl

/-- C9: `get_audio_duration` returns `frames / sample_rate` for a readable
container with a non-zero rate; when the file is missing or unreadable, or the
sample rate is zero, the failure is caught and the function returns `0`
directly, so its caller proceeds with duration `0` instead of halting. -/
theorem C9_audio_probe (meta : Option (ℕ × ℕ)) :
    (∀ frames sample_rate, meta = some (frames, sample_rate) →
      sample_rate ≠ 0 →
      get_audio_duration meta = (frames : ℚ) / sample_rate) ∧
    (meta = none → get_audio_duration meta = 0) ∧
    (∀ frames, meta = some (frames, 0) → get_audio_duration meta = 0) := by
  refine ⟨?_, ?_, ?_⟩
  · intro frames sample_rate h hr
    subst h
    simp [get_audio_duration, hr]
  · intro h
    subst h
    rfl
  · intro frames h
    subst h
    rfl

/-- Witness for C9: a 6-frame file at 3 Hz probes to 2 seconds. -/
theorem C9_audio_probe_witness :
    get_audio_duration (some (6, 3)) = (6 : ℚ) / 3 :=
  (C9_audio_probe (some (6, 3))).1 6 3 rfl (by decide)

end VideoGen
